import Mathlib

set_option maxRecDepth 100000

/-!
Verification of the check50_workflow generator (src/check50_workflow/__main__.py).

The program builds a nested mapping/list document describing a CI workflow and
serializes it with a customized PyYAML dumper.  We embed the Python values as the
inductive type `Value` (strings, insertion-ordered string-keyed dicts, lists, and
the BlankLine placeholder class), embed the builder `build_workflow` as a fold
mirroring the Python loop, and embed the representation pass of the dumper
(PyYAML `represent_data` dispatch plus the representers registered in the source)
as a function from `Value` to the node tree `Node`.
-/

namespace Check50

/-- Embedding of the Python values that occur in the program: strings,
insertion-ordered dicts with string keys, lists, and instances of the
`BlankLine` placeholder class. -/
inductive Value where
  | str : String → Value
  | vmap : List (String × Value) → Value
  | vlist : List Value → Value
  | blank : Value

mutual

/-- Decidable equality on `Value` (hand-written: the value type nests lists). -/
def valueDecEq : (a b : Value) → Decidable (a = b)
  | Value.str x, Value.str y =>
    match String.decEq x y with
    | isTrue h => isTrue (congrArg Value.str h)
    | isFalse h => isFalse (fun hh => by injection hh with h2; exact h h2)
  | Value.vmap x, Value.vmap y =>
    match entriesDecEq x y with
    | isTrue h => isTrue (congrArg Value.vmap h)
    | isFalse h => isFalse (fun hh => by injection hh with h2; exact h h2)
  | Value.vlist x, Value.vlist y =>
    match listDecEq x y with
    | isTrue h => isTrue (congrArg Value.vlist h)
    | isFalse h => isFalse (fun hh => by injection hh with h2; exact h h2)
  | Value.blank, Value.blank => isTrue rfl
  | Value.str _, Value.vmap _ => isFalse (fun h => Value.noConfusion h)
  | Value.str _, Value.vlist _ => isFalse (fun h => Value.noConfusion h)
  | Value.str _, Value.blank => isFalse (fun h => Value.noConfusion h)
  | Value.vmap _, Value.str _ => isFalse (fun h => Value.noConfusion h)
  | Value.vmap _, Value.vlist _ => isFalse (fun h => Value.noConfusion h)
  | Value.vmap _, Value.blank => isFalse (fun h => Value.noConfusion h)
  | Value.vlist _, Value.str _ => isFalse (fun h => Value.noConfusion h)
  | Value.vlist _, Value.vmap _ => isFalse (fun h => Value.noConfusion h)
  | Value.vlist _, Value.blank => isFalse (fun h => Value.noConfusion h)
  | Value.blank, Value.str _ => isFalse (fun h => Value.noConfusion h)
  | Value.blank, Value.vmap _ => isFalse (fun h => Value.noConfusion h)
  | Value.blank, Value.vlist _ => isFalse (fun h => Value.noConfusion h)

/-- Decidable equality on lists of values. -/
def listDecEq : (a b : List Value) → Decidable (a = b)
  | [], [] => isTrue rfl
  | [], _ :: _ => isFalse (fun h => List.noConfusion h)
  | _ :: _, [] => isFalse (fun h => List.noConfusion h)
  | x :: xs, y :: ys =>
    match valueDecEq x y, listDecEq xs ys with
    | isTrue h1, isTrue h2 => isTrue (by rw [h1, h2])
    | isFalse h1, _ => isFalse (fun hh => by injection hh with a b; exact h1 a)
    | _, isFalse h2 => isFalse (fun hh => by injection hh with a b; exact h2 b)

/-- Decidable equality on dict entry lists. -/
def entriesDecEq : (a b : List (String × Value)) → Decidable (a = b)
  | [], [] => isTrue rfl
  | [], _ :: _ => isFalse (fun h => List.noConfusion h)
  | _ :: _, [] => isFalse (fun h => List.noConfusion h)
  | (k1, v1) :: xs, (k2, v2) :: ys =>
    match String.decEq k1 k2, valueDecEq v1 v2, entriesDecEq xs ys with
    | isTrue h1, isTrue h2, isTrue h3 => isTrue (by rw [h1, h2, h3])
    | isFalse h1, _, _ =>
      isFalse (fun hh => by injection hh with a b; exact h1 (congrArg Prod.fst a))
    | _, isFalse h2, _ =>
      isFalse (fun hh => by injection hh with a b; exact h2 (congrArg Prod.snd a))
    | _, _, isFalse h3 => isFalse (fun hh => by injection hh with a b; exact h3 b)

end

instance : DecidableEq Value := valueDecEq

/-- Python `s.rstrip('/')`: remove every trailing `/` character. -/
def rstripSlash (s : String) : String :=
  String.mk ((s.toList.reverse.dropWhile (fun c => c = '/')).reverse)

/-- Split a character list at every occurrence of the separator character,
keeping empty chunks (the semantics of splitting a string on a one-character
separator). -/
def splitOnChar (c : Char) : List Char → List (List Char)
  | [] => [[]]
  | x :: xs =>
    let r := splitOnChar c xs
    if x = c then [] :: r else (x :: r.headD []) :: r.tail

/-- Component list of a POSIX path as parsed by `pathlib`: split on `/`,
dropping empty components and `.` components (pathlib discards both). -/
def pathParts (s : String) : List String :=
  ((splitOnChar ('/') s.toList).map (fun cs => String.mk cs)).filter
    (fun p => !(p == "") && !(p == "."))

/-- Embedding of `pathlib.PurePath.name`: the final path component, or the
empty string when there is none. -/
def pathName (s : String) : String :=
  match (pathParts s).getLast? with
  | some p => p
  | none => ""

/-- Index of the last `.` in a character list, if any (Python `name.rfind('.')`
restricted to the found case). -/
def lastDotIdx (cs : List Char) : Option Nat :=
  ((List.range cs.length).filter (fun i => cs.get? i == some ('.'))).getLast?

/-- Embedding of `pathlib.PurePath.stem`: the final component without its last
suffix.  pathlib keeps the whole name unless the last dot sits strictly inside
the name (`0 < i < len(name) - 1`). -/
def stem (s : String) : String :=
  let n := (pathName s).toList
  match lastDotIdx n with
  | some i => if 0 < i ∧ i < n.length - 1 then String.mk (n.take i) else String.mk n
  | none => String.mk n

/-- Name derivation performed per slug in `build_workflow` (lines 101-103):
`slug_clean = slug_path.rstrip('/')`, then `Path(slug_clean).stem`. -/
def deriveName (slug_path : String) : String :=
  stem (rstripSlash slug_path)

/-- The fixed checkout scaffold step. -/
def checkoutStep : Value :=
  Value.vmap [("uses", Value.str ("actions/checkout@v4"))]

/-- The fixed dependency-install scaffold step, with its multi-line script. -/
def installStep : Value :=
  Value.vmap
    [("name", Value.str ("Install dependencies (node, git, jq)")),
     ("run", Value.str ("apt-get update\napt-get install -y nodejs git jq\napt-get clean\nrm -rf /var/lib/apt/lists/*\n"))]

/-- The grading step appended for one slug (lines 106-124): `slug_clean` is the
slug with trailing slashes stripped, `name` the derived short name. -/
def gradingStep (slug_clean name : String) : Value :=
  Value.vmap
    [("name", Value.str name),
     ("id", Value.str name),
     ("uses", Value.str ("classroom-resources/autograding-command-grader@v1")),
     ("with", Value.vmap
        [("test-name", Value.str name),
         ("setup-command", Value.str ("pip uninstall -y check50\npip install --no-cache-dir git+https://github.com/dhodcz2/check50.git\n")),
         ("command", Value.str ("check50 " ++ slug_clean ++ " --dev -o json --autograder ./autograder/" ++ name ++ ".json --feedback ./feedback/" ++ name ++ ".txt"))])]

/-- The result-export step appended after the grading step (lines 125-127).
Its run command base64-encodes `./<name>.json` into `<name>_RESULTS`. -/
def exportStep (name : String) : Value :=
  Value.vmap
    [("name", Value.str ("Assign file contents to " ++ name ++ "_RESULTS")),
     ("run", Value.str ("echo \"" ++ name ++ "_RESULTS=$(base64 -w0 ./" ++ name ++ ".json)\" >> $GITHUB_ENV"))]

/-- Python dict assignment `d[k] = v` on an insertion-ordered dict: overwrite in
place when the key is present, append otherwise. -/
def dictSet (d : List (String × Value)) (k : String) (v : Value) : List (String × Value) :=
  if d.any (fun p => p.1 == k) then
    d.map (fun p => if p.1 == k then (k, v) else p)
  else d ++ [(k, v)]

/-- The env key produced for a derived name: `<name>_RESULTS`. -/
def envKey (s : String) : String := s ++ "_RESULTS"

/-- The env value produced for a derived name: the template expression
dereferencing the shared environment variable. -/
def envVal (s : String) : Value :=
  Value.str ("$\x7b\x7b env." ++ s ++ "_RESULTS \x7d\x7d")

/-- The dict comprehension on line 129,
`{f'{s}_RESULTS': f'${{{{ env.{s}_RESULTS }}}}' for s in slug_names}`,
as the fold of Python dict assignment over the produced names. -/
def envMap (slug_names : List String) : List (String × Value) :=
  slug_names.foldl (fun d s => dictSet d (envKey s) (envVal s)) []

/-- The reporter step appended after the loop (lines 130-137). -/
def reporterStep (slug_names : List String) : Value :=
  Value.vmap
    [("name", Value.str ("Autograding Reporter")),
     ("uses", Value.str ("classroom-resources/autograding-grading-reporter@v1")),
     ("env", Value.vmap (envMap slug_names)),
     ("with", Value.vmap [("runners", Value.str (String.intercalate (" ") slug_names))])]

/-- The per-slug loop of `build_workflow` (lines 100-127): starting from the two
scaffold steps and an empty name list, each slug appends its grading step and
its export step and records its derived name. -/
def buildLoop (slugs : List String) : List Value × List String :=
  slugs.foldl
    (fun acc slug_path =>
      let slug_clean := rstripSlash slug_path
      let slug_name_no_ext := stem slug_clean
      (acc.1 ++ [gradingStep slug_clean slug_name_no_ext, exportStep slug_name_no_ext],
       acc.2 ++ [slug_name_no_ext]))
    ([checkoutStep, installStep], [])

/-- Embedding of `build_workflow` (lines 66-139): the fixed scaffolding with the
step list produced by the loop, followed by the reporter step. -/
def build_workflow (slugs : List String) : Value :=
  let loop := buildLoop slugs
  Value.vmap
    [("name", Value.str ("Autograding Tests")),
     ("on", Value.vmap [("push", Value.vmap []), ("repository_dispatch", Value.vmap [])]),
     ("permissions", Value.vmap
        [("checks", Value.str ("write")),
         ("actions", Value.str ("read")),
         ("contents", Value.str ("read"))]),
     ("jobs", Value.vmap
        [("run-autograding-tests", Value.vmap
           [("container", Value.vmap [("image", Value.str ("python:3.12-slim"))]),
            ("runs-on", Value.str ("ubuntu-latest")),
            ("steps", Value.vlist (loop.1 ++ [reporterStep loop.2]))])])]

/-- Lookup of a key in a mapping value. -/
def mapGet (v : Value) (k : String) : Option Value :=
  match v with
  | Value.vmap d => ((d.find? (fun p => p.1 == k)).map (fun p => p.2))
  | _ => none

/-- The step list of the single job of a workflow document. -/
def stepsOf (w : Value) : List Value :=
  match ((mapGet w ("jobs")).bind (fun j => mapGet j ("run-autograding-tests"))).bind
      (fun j => mapGet j ("steps")) with
  | some (Value.vlist l) => l
  | _ => []

/-- Scalar style recorded on a represented node: `defaultStyle` stands for the
Python `style=None` (no explicit style requested), `literal` for `style='|'`. -/
inductive Style where
  | defaultStyle : Style
  | literal : Style
deriving DecidableEq

/-- The YAML string tag used by the representers in the source. -/
def strTag : String := "tag:yaml.org,2002:str"

/-- The YAML sequence tag produced by the stock list representer. -/
def seqTag : String := "tag:yaml.org,2002:seq"

/-- The YAML mapping tag produced by the stock dict representer. -/
def mapTag : String := "tag:yaml.org,2002:map"

/-- Node tree produced by the representation pass of the dumper. -/
inductive Node where
  | scalar : String → String → Style → Node
  | seq : String → List Node → Node
  | mapping : String → List (Node × Node) → Node

/-- Embedding of `str_presenter` (lines 16-19): a string containing a line
break is represented with literal block style, any other string with no
explicit style. -/
def str_presenter (data : String) : Node :=
  if data.toList.contains ('\n') then Node.scalar strTag data Style.literal
  else Node.scalar strTag data Style.defaultStyle

/-- Embedding of `blank_line_presenter` (lines 24-26): a `BlankLine` instance
is represented as an empty string with literal style. -/
def blank_line_presenter : Node :=
  Node.scalar strTag "" Style.literal

mutual

/-- Embedding of the PyYAML `represent_data` dispatch as configured by the
source.  `BlankLineStepsDumper.add_representer` registered `str_presenter` for
`str` and `blank_line_presenter` for `BlankLine` in `yaml_representers`; the
later assignment `BlankLineStepsDumper.represent_list = ...` only rebinds a
class attribute and does not touch `yaml_representers`, which is the table
`represent_data` consults, so list values are still represented by the stock
inherited `represent_list`, that is `represent_sequence` over the items.
Dicts are represented by the stock `represent_dict`, which under the
`sort_keys=False` passed by `main` preserves insertion order. -/
def representData : Value → Node
  | Value.str s => str_presenter s
  | Value.blank => blank_line_presenter
  | Value.vlist items => Node.seq seqTag (representItems items)
  | Value.vmap d => Node.mapping mapTag (representEntries d)

/-- Representation of the items of a list value, in order. -/
def representItems : List Value → List Node
  | [] => []
  | v :: vs => representData v :: representItems vs

/-- Representation of the entries of a dict value, in order; keys are strings
and therefore also go through `str_presenter`. -/
def representEntries : List (String × Value) → List (Node × Node)
  | [] => []
  | (k, v) :: rest => (str_presenter k, representData v) :: representEntries rest

end

/-- The list interleaving performed by
`represent_list_with_extra_blank_lines` (lines 52-58) when it considers a list
to be the steps array: a fresh list `new_data` holding a `BlankLine` before
every item except the first.  The input list is not mutated. -/
def blankSep : List Value → List Value
  | [] => []
  | x :: xs => x :: xs.flatMap (fun y => [Value.blank, y])

mutual

/-- Absence of `BlankLine` values anywhere inside a value. -/
def noBlank : Value → Bool
  | Value.str _ => true
  | Value.blank => false
  | Value.vlist items => noBlankItems items
  | Value.vmap d => noBlankEntries d

/-- Absence of `BlankLine` values inside every item of a list. -/
def noBlankItems : List Value → Bool
  | [] => true
  | v :: vs => noBlank v && noBlankItems vs

/-- Absence of `BlankLine` values inside every entry of a dict. -/
def noBlankEntries : List (String × Value) → Bool
  | [] => true
  | (_, v) :: rest => noBlank v && noBlankEntries rest

end

mutual

/-- A node tree satisfies the multi-line rendering rule when every scalar in
it carries literal style exactly when its value contains a line break. -/
def stylesOk : Node → Bool
  | Node.scalar _ v st => (st == Style.literal) == v.toList.contains ('\n')
  | Node.seq _ items => stylesOkItems items
  | Node.mapping _ pairs => stylesOkPairs pairs

/-- The rule `stylesOk`, over every item of a sequence node. -/
def stylesOkItems : List Node → Bool
  | [] => true
  | n :: ns => stylesOk n && stylesOkItems ns

/-- The rule `stylesOk`, over every key and value of a mapping node. -/
def stylesOkPairs : List (Node × Node) → Bool
  | [] => true
  | (k, v) :: rest => stylesOk k && stylesOk v && stylesOkPairs rest

end

/-- Embedding of the `Namespace` produced by the argument model
(`args.py`): the slug list, the output path and the force flag. -/
structure Namespace where
  slugs : List String
  outfile : String
  force : Bool

/-- State of the output path before and after a run: absent, holding
pre-existing text, or holding the dump of a represented document. -/
inductive FileContent where
  | absent : FileContent
  | existing : String → FileContent
  | dumped : Node → FileContent

/-- Existence check on the output path, the `os.path.exists` of line 143. -/
def fileExists : FileContent → Bool
  | FileContent.absent => false
  | _ => true

/-- Embedding of `main` (lines 141-154) over an explicit file state: when the
output path exists and force is not set, the process exits with status 1 and
the file is left untouched; otherwise the document is built and its dump is
written to the path (the run finishing with status 0).  The written artifact
is modelled at the node-tree stage of the dump. -/
def mainRun (args : Namespace) (fs : FileContent) : Nat × FileContent :=
  if fileExists fs && !args.force then (1, fs)
  else (0, FileContent.dumped (representData (build_workflow args.slugs)))

/-- Per-slug contribution to the step list: the grading step followed by the
result-export step. -/
def slugSteps (slug_path : String) : List Value :=
  [gradingStep (rstripSlash slug_path) (deriveName slug_path),
   exportStep (deriveName slug_path)]

/-- One reporter environment entry for a produced name. -/
def envEntry (s : String) : String × Value := (envKey s, envVal s)

/-- First-occurrence deduplication with an explicit seen accumulator: the
order of Python dict keys built by repeated assignment. -/
def dedupNew (seen : List String) : List String → List String
  | [] => []
  | x :: xs => if x ∈ seen then dedupNew seen xs else x :: dedupNew (seen ++ [x]) xs

/-- The env mapping of the reporter step, the last entry of the step list. -/
def reporterEnvOf (w : Value) : List (String × Value) :=
  match ((stepsOf w).getLast?).bind (fun v => mapGet v ("env")) with
  | some (Value.vmap d) => d
  | _ => []

/-- The runners parameter of the reporter step, the last entry of the step
list. -/
def runnersOf (w : Value) : Option Value :=
  (((stepsOf w).getLast?).bind (fun v => mapGet v ("with"))).bind
    (fun p => mapGet p ("runners"))

/-- Lookup of a string key among the pairs of a mapping node. -/
def nodeMapGet (n : Node) (k : String) : Option Node :=
  match n with
  | Node.mapping _ pairs =>
    ((pairs.find? (fun p =>
        match p.1 with
        | Node.scalar _ v _ => v == k
        | _ => false)).map (fun p => p.2))
  | _ => none

/-- The item list of the steps sequence node inside a represented workflow
document: what the emitter walks when it renders the step entries. -/
def nodeStepsOf (n : Node) : List Node :=
  match ((nodeMapGet n ("jobs")).bind
      (fun j => nodeMapGet j ("run-autograding-tests"))).bind
      (fun j => nodeMapGet j ("steps")) with
  | some (Node.seq _ items) => items
  | _ => []

/-- Recognizer for the node emitted for a `BlankLine` placeholder: an empty
string scalar with literal style, which renders as a blank output line. -/
def isBlankNode : Node → Bool
  | Node.scalar t v st => t == strTag && v == "" && st == Style.literal
  | _ => false

/-- The command parameter of a grading step. -/
def commandOf (v : Value) : Option Value :=
  (mapGet v ("with")).bind (fun p => mapGet p ("command"))

theorem buildLoop_foldl (slugs : List String) (acc : List Value × List String) :
    slugs.foldl
      (fun acc slug_path =>
        let slug_clean := rstripSlash slug_path
        let slug_name_no_ext := stem slug_clean
        (acc.1 ++ [gradingStep slug_clean slug_name_no_ext, exportStep slug_name_no_ext],
         acc.2 ++ [slug_name_no_ext])) acc
      = (acc.1 ++ slugs.flatMap slugSteps, acc.2 ++ slugs.map deriveName) := by
  induction slugs generalizing acc with
  | nil => simp
  | cons p ps ih =>
    rw [List.foldl_cons, ih]
    simp [slugSteps, deriveName, List.append_assoc]

theorem buildLoop_eq (slugs : List String) :
    buildLoop slugs
      = ([checkoutStep, installStep] ++ slugs.flatMap slugSteps, slugs.map deriveName) := by
  simpa [buildLoop] using buildLoop_foldl slugs ([checkoutStep, installStep], [])

theorem stepsOf_build (slugs : List String) :
    stepsOf (build_workflow slugs)
      = (buildLoop slugs).1 ++ [reporterStep (buildLoop slugs).2] := rfl

theorem steps_closed (slugs : List String) :
    stepsOf (build_workflow slugs)
      = [checkoutStep, installStep] ++ slugs.flatMap slugSteps
          ++ [reporterStep (slugs.map deriveName)] := by
  rw [stepsOf_build, buildLoop_eq]

theorem length_flatMap_slugSteps (slugs : List String) :
    (slugs.flatMap slugSteps).length = 2 * slugs.length := by
  induction slugs with
  | nil => rfl
  | cons p ps ih =>
    rw [List.flatMap_cons, List.length_append, ih]
    simp [slugSteps]
    omega

/-- C1: for every non-empty slug list, the step list of the job of the built
workflow has exactly 2 + 2n + 1 entries, in order the checkout step, the
dependency-install step, then for each slug in input order its grading step
followed by its result-export step, then the single reporter step. -/
theorem c1_steps_shape (slugs : List String) (h : slugs ≠ []) :
    stepsOf (build_workflow slugs)
      = [checkoutStep, installStep] ++ slugs.flatMap slugSteps
          ++ [reporterStep (slugs.map deriveName)]
    ∧ (stepsOf (build_workflow slugs)).length = 2 + 2 * slugs.length + 1 := by
  refine ⟨steps_closed slugs, ?_⟩
  rw [steps_closed, List.length_append, List.length_append, length_flatMap_slugSteps]
  simp only [List.length_cons, List.length_nil]

/-- Witness for C1 at the one-slug input. -/
theorem c1_steps_shape_witness :
    ((["example"] : List String) ≠ [])
    ∧ (stepsOf (build_workflow (["example"]))
        = [checkoutStep, installStep] ++ (["example"] : List String).flatMap slugSteps
            ++ [reporterStep ((["example"] : List String).map deriveName)]
      ∧ (stepsOf (build_workflow (["example"]))).length
          = 2 + 2 * (["example"] : List String).length + 1) :=
  ⟨by decide, c1_steps_shape (["example"]) (by decide)⟩

theorem toList_mk (cs : List Char) : (String.mk cs).toList = cs := rfl

theorem dropWhile_dropWhile (p : Char → Bool) (l : List Char) :
    (l.dropWhile p).dropWhile p = l.dropWhile p := by
  induction l with
  | nil => rfl
  | cons a l ih => cases hpa : p a <;> simp [List.dropWhile_cons, hpa, ih]

theorem rstripSlash_idem (s : String) : rstripSlash (rstripSlash s) = rstripSlash s := by
  simp [rstripSlash, toList_mk, List.reverse_reverse, dropWhile_dropWhile]

/-- C5: name derivation strips trailing path separators and takes the final
path component without its extension; the three reference inputs produce
`bar`, and derivation is invariant under first stripping trailing
separators. -/
theorem c5_derive_name (s : String) :
    deriveName ("foo/bar/") = "bar"
    ∧ deriveName ("foo/bar") = "bar"
    ∧ deriveName ("bar.py") = "bar"
    ∧ deriveName (rstripSlash s) = deriveName s := by
  refine ⟨by decide, by decide, by decide, ?_⟩
  simp [deriveName, rstripSlash_idem]

/-- C4: when the output path exists and force is not set, the run exits with
status 1 and the file state is returned untouched, the result carrying no
built document; when force is set or the path is absent, the run succeeds and
the written file holds the dump of the built document. -/
theorem c4_overwrite_guard (args : Namespace) (fs : FileContent) :
    (fileExists fs = true → args.force = false → mainRun args fs = (1, fs))
    ∧ (args.force = true ∨ fs = FileContent.absent →
        mainRun args fs
          = (0, FileContent.dumped (representData (build_workflow args.slugs)))) := by
  constructor
  · intro h1 h2
    simp [mainRun, h1, h2]
  · intro h
    rcases h with h | h
    · simp [mainRun, h]
    · subst h; simp [mainRun, fileExists]

/-- Witness for C4: a pre-existing file without force, and the same call with
force. -/
theorem c4_overwrite_guard_witness :
    mainRun ⟨["example"], "out.yml", false⟩ (FileContent.existing ("old"))
      = (1, FileContent.existing ("old"))
    ∧ mainRun ⟨["example"], "out.yml", true⟩ (FileContent.existing ("old"))
      = (0, FileContent.dumped (representData (build_workflow (["example"])))) :=
  ⟨(c4_overwrite_guard ⟨["example"], "out.yml", false⟩ (FileContent.existing ("old"))).1
      rfl rfl,
   (c4_overwrite_guard ⟨["example"], "out.yml", true⟩ (FileContent.existing ("old"))).2
      (Or.inl rfl)⟩

theorem steps_getLast (slugs : List String) :
    (stepsOf (build_workflow slugs)).getLast?
      = some (reporterStep (slugs.map deriveName)) := by
  rw [steps_closed, List.getLast?_concat]

theorem envKey_inj {a b : String} (h : envKey a = envKey b) : a = b := by
  have hd := congrArg String.data h
  simp only [envKey, String.data_append] at hd
  exact String.ext (List.append_cancel_right hd)

theorem dictSet_map_envEntry (out : List String) (x : String) :
    dictSet (out.map envEntry) (envKey x) (envVal x)
      = if x ∈ out then out.map envEntry else (out ++ [x]).map envEntry := by
  by_cases hx : x ∈ out
  · rw [if_pos hx]
    have hany : (out.map envEntry).any (fun p => p.1 == envKey x) = true := by
      rw [List.any_eq_true]
      exact ⟨envEntry x, List.mem_map_of_mem envEntry hx, by simp [envEntry]⟩
    rw [dictSet, if_pos hany, List.map_map]
    refine List.map_congr_left ?_
    intro a _
    by_cases hk : envKey a = envKey x
    · have ha : a = x := envKey_inj hk
      subst ha
      simp [envEntry, Function.comp]
    · simp [envEntry, Function.comp, hk]
  · rw [if_neg hx]
    have hany : (out.map envEntry).any (fun p => p.1 == envKey x) = false := by
      rw [List.any_eq_false]
      intro p hp
      obtain ⟨a, ha, rfl⟩ := List.mem_map.mp hp
      have hne : envKey a ≠ envKey x := fun e => hx ((envKey_inj e) ▸ ha)
      simp [envEntry, beq_eq_false_iff_ne, hne]
    rw [dictSet, if_neg (by simp [hany]), List.map_append]
    rfl

theorem envMap_foldl (names : List String) (out : List String) :
    names.foldl (fun d s => dictSet d (envKey s) (envVal s)) (out.map envEntry)
      = (out ++ dedupNew out names).map envEntry := by
  induction names generalizing out with
  | nil => simp [dedupNew]
  | cons x xs ih =>
    rw [List.foldl_cons, dictSet_map_envEntry]
    by_cases hx : x ∈ out
    · rw [if_pos hx, dedupNew, if_pos hx, ih]
    · rw [if_neg hx, dedupNew, if_neg hx, ih (out ++ [x])]
      simp [List.append_assoc]

theorem envMap_eq (names : List String) :
    envMap names = (dedupNew [] names).map envEntry := by
  simpa [envMap] using envMap_foldl names []

theorem reporterEnvOf_build (slugs : List String) :
    reporterEnvOf (build_workflow slugs) = envMap (slugs.map deriveName) := by
  simp [reporterEnvOf, steps_getLast, reporterStep, mapGet]

/-- C6 (counterexample): for the duplicate slug list a, a the produced name
list has two occurrences but the reporter env mapping has a single entry, not
one entry per occurrence. -/
theorem c6_counterexample :
    (reporterEnvOf (build_workflow (["a", "a"]))).length = 1
    ∧ ((["a", "a"] : List String).map deriveName).length = 2
    ∧ ¬ ((reporterEnvOf (build_workflow (["a", "a"]))).length
          = ((["a", "a"] : List String).map deriveName).length) := by
  refine ⟨by decide, by decide, by decide⟩

/-- C6 (amended): the reporter env mapping has one entry per distinct produced
name, in first-occurrence order, each mapping name_RESULTS to the template
expression dereferencing the shared environment variable of that name;
duplicate names collapse into the single entry for that name. -/
theorem c6_env_one_entry_per_distinct_name (slugs : List String) :
    reporterEnvOf (build_workflow slugs)
      = (dedupNew [] (slugs.map deriveName)).map envEntry := by
  rw [reporterEnvOf_build, envMap_eq]

/-- C7: duplicate slugs pass through, each occurrence contributing its own
derived name in input order, and the runners parameter of the reporter step is
the space-joined list of all produced names including duplicates. -/
theorem c7_duplicates_passthrough (slugs : List String) :
    (buildLoop slugs).2 = slugs.map deriveName
    ∧ runnersOf (build_workflow slugs)
        = some (Value.str (String.intercalate (" ") (slugs.map deriveName))) := by
  refine ⟨congrArg Prod.snd (buildLoop_eq slugs), ?_⟩
  simp [runnersOf, steps_getLast, reporterStep, mapGet]

theorem noBlankItems_append (l1 l2 : List Value) :
    noBlankItems (l1 ++ l2) = (noBlankItems l1 && noBlankItems l2) := by
  induction l1 with
  | nil => rfl
  | cons v vs ih => simp [noBlankItems, ih, Bool.and_assoc]

theorem noBlank_slugSteps (p : String) : noBlankItems (slugSteps p) = true := rfl

theorem noBlankItems_flatMap (slugs : List String) :
    noBlankItems (slugs.flatMap slugSteps) = true := by
  induction slugs with
  | nil => rfl
  | cons p ps ih =>
    rw [List.flatMap_cons, noBlankItems_append, noBlank_slugSteps, ih]
    rfl

theorem noBlankEntries_map_envEntry (l : List String) :
    noBlankEntries (l.map envEntry) = true := by
  induction l with
  | nil => rfl
  | cons a l ih => simp [envEntry, envVal, noBlankEntries, noBlank, ih]

theorem noBlank_reporterStep (names : List String) :
    noBlank (reporterStep names) = true := by
  simp [reporterStep, noBlank, noBlankEntries, envMap_eq, noBlankEntries_map_envEntry]

theorem steps_noBlank (slugs : List String) :
    noBlankItems (stepsOf (build_workflow slugs)) = true := by
  rw [steps_closed, noBlankItems_append, noBlankItems_append, noBlankItems_flatMap]
  simp only [noBlankItems, noBlank_reporterStep]
  rfl

theorem noBlank_beq_false {v : Value} (h : noBlank v = true) :
    (v == Value.blank) = false := by
  rw [beq_eq_false_iff_ne]
  intro hv
  subst hv
  simp [noBlank] at h

theorem blankSep_filter_aux (xs : List Value) (h : noBlankItems xs = true) :
    (xs.flatMap (fun y => [Value.blank, y])).filter (fun v => !(v == Value.blank)) = xs := by
  induction xs with
  | nil => rfl
  | cons y ys ih =>
    rw [noBlankItems, Bool.and_eq_true] at h
    obtain ⟨h1, h2⟩ := h
    rw [List.flatMap_cons, List.filter_append]
    simp [List.filter, noBlank_beq_false h1, ih h2]

/-- C8: the logical step list of the built document never holds a BlankLine
placeholder, and the interleaved list built for rendering is a separate list:
filtering the placeholders back out of it returns exactly the logical step
list, which is left unchanged. -/
theorem c8_logical_steps_unpolluted (slugs : List String) :
    noBlankItems (stepsOf (build_workflow slugs)) = true
    ∧ (blankSep (stepsOf (build_workflow slugs))).filter (fun v => !(v == Value.blank))
        = stepsOf (build_workflow slugs) := by
  refine ⟨steps_noBlank slugs, ?_⟩
  have h := steps_noBlank slugs
  cases hs : stepsOf (build_workflow slugs) with
  | nil => rfl
  | cons x xs =>
    rw [hs, noBlankItems, Bool.and_eq_true] at h
    obtain ⟨h1, h2⟩ := h
    rw [blankSep]
    simp [List.filter, noBlank_beq_false h1, blankSep_filter_aux xs h2]

theorem stylesOk_str_presenter (s : String) : stylesOk (str_presenter s) = true := by
  by_cases hc : '\n' ∈ s.data
  · simp [str_presenter, stylesOk, hc]
  · simp [str_presenter, stylesOk, hc]

mutual

theorem stylesOk_representData :
    (v : Value) → noBlank v = true → stylesOk (representData v) = true
  | Value.str s, _ => stylesOk_str_presenter s
  | Value.blank, h => by simp [noBlank] at h
  | Value.vlist items, h =>
    stylesOk_representItems items (by simpa [noBlank] using h)
  | Value.vmap d, h =>
    stylesOk_representEntries d (by simpa [noBlank] using h)

theorem stylesOk_representItems :
    (l : List Value) → noBlankItems l = true → stylesOkItems (representItems l) = true
  | [], _ => rfl
  | v :: vs, h => by
    rw [noBlankItems, Bool.and_eq_true] at h
    show (stylesOk (representData v) && stylesOkItems (representItems vs)) = true
    rw [Bool.and_eq_true]
    exact ⟨stylesOk_representData v h.1, stylesOk_representItems vs h.2⟩

theorem stylesOk_representEntries :
    (d : List (String × Value)) → noBlankEntries d = true →
      stylesOkPairs (representEntries d) = true
  | [], _ => rfl
  | (k, v) :: rest, h => by
    rw [noBlankEntries, Bool.and_eq_true] at h
    show (stylesOk (str_presenter k) && stylesOk (representData v)
        && stylesOkPairs (representEntries rest)) = true
    rw [Bool.and_eq_true, Bool.and_eq_true]
    exact ⟨⟨stylesOk_str_presenter k, stylesOk_representData v h.1⟩,
      stylesOk_representEntries rest h.2⟩

end

theorem build_workflow_noBlank (slugs : List String) :
    noBlank (build_workflow slugs) = true := by
  have h := steps_noBlank slugs
  rw [stepsOf_build] at h
  simp [build_workflow, noBlank, noBlankEntries, noBlankItems, h]

/-- C9: a string value containing an embedded line break is represented as a
literal block scalar and one without a line break as a scalar with no explicit
style, and every scalar node of the represented built document obeys this
rule: literal style exactly when the value holds a line break. -/
theorem c9_multiline_strings_literal (s : String) (slugs : List String) :
    (s.toList.contains ('\n') = true →
        str_presenter s = Node.scalar strTag s Style.literal)
    ∧ (s.toList.contains ('\n') = false →
        str_presenter s = Node.scalar strTag s Style.defaultStyle)
    ∧ stylesOk (representData (build_workflow slugs)) = true := by
  refine ⟨fun h => ?_, fun h => ?_, ?_⟩
  · have hc : '\n' ∈ s.data := by simpa using h
    simp [str_presenter, hc]
  · have hc : ¬ ('\n' ∈ s.data) := by simpa using h
    simp [str_presenter, hc]
  · exact stylesOk_representData (build_workflow slugs) (build_workflow_noBlank slugs)

/-- Witness for C9: one string with a line break, one without, and the
document built from one slug. -/
theorem c9_multiline_strings_literal_witness :
    str_presenter ("a\nb") = Node.scalar strTag ("a\nb") Style.literal
    ∧ str_presenter ("ab") = Node.scalar strTag ("ab") Style.defaultStyle
    ∧ stylesOk (representData (build_workflow (["example"]))) = true :=
  ⟨(c9_multiline_strings_literal ("a\nb") (["example"])).1 (by decide),
   (c9_multiline_strings_literal ("ab") (["example"])).2.1 (by decide),
   (c9_multiline_strings_literal ("ab") (["example"])).2.2⟩

/-- C2: evaluating the dumper at the two-slug request shows that the rendered
steps sequence node holds exactly the representations of the seven logical
steps, with no empty literal separator item anywhere, because the assignment
to the represent_list attribute never reaches the representer registry that
represent_data dispatches through. -/
theorem c2_rendered_steps_without_separators :
    nodeStepsOf (representData (build_workflow (["example/", "example/test2.py"])))
      = representItems (stepsOf (build_workflow (["example/", "example/test2.py"])))
    ∧ (nodeStepsOf (representData (build_workflow (["example/", "example/test2.py"])))).length
        = 7
    ∧ (nodeStepsOf (representData (build_workflow (["example/", "example/test2.py"])))).all
        (fun n => !(isBlankNode n)) = true :=
  ⟨rfl, by decide, by decide⟩

/-- C3: for the slug example, the grading step writes its JSON output to
./autograder/example.json, while the result-export step base64-encodes
./example.json, a path the grading step does not write: the export command
does not mention the autograder output path at all. -/
theorem c3_export_reads_unwritten_path :
    commandOf (gradingStep (rstripSlash ("example")) (deriveName ("example")))
      = some (Value.str ("check50 example --dev -o json --autograder ./autograder/example.json --feedback ./feedback/example.txt"))
    ∧ mapGet (exportStep (deriveName ("example"))) ("run")
      = some (Value.str ("echo \"example_RESULTS=$(base64 -w0 ./example.json)\" >> $GITHUB_ENV"))
    ∧ ("./example.json").toList
        <:+: ("echo \"example_RESULTS=$(base64 -w0 ./example.json)\" >> $GITHUB_ENV").toList
    ∧ ¬ (("./autograder/example.json").toList
        <:+: ("echo \"example_RESULTS=$(base64 -w0 ./example.json)\" >> $GITHUB_ENV").toList) :=
  ⟨by decide, by decide, by decide, by decide⟩

/-- C10 (counterexample): for the slug consisting of a single path separator
the derived name is empty, but the result-export step is not a step whose name
and identifier are empty strings: its name is the nonempty string produced by
interpolating the empty name, and it has no identifier field at all. -/
theorem c10_counterexample :
    deriveName ("/") = ""
    ∧ mapGet (exportStep (deriveName ("/"))) ("name")
        = some (Value.str ("Assign file contents to _RESULTS"))
    ∧ ¬ (mapGet (exportStep (deriveName ("/"))) ("name") = some (Value.str ("")))
    ∧ mapGet (exportStep (deriveName ("/"))) ("id") = none := by
  refine ⟨by decide, by decide, by decide, by decide⟩

/-- C10 (amended): for the slug consisting of a single path separator the
derived name is the empty string and the builder still succeeds: the grading
step has empty name and identifier, the follow-up export step is named by
interpolating the empty name and has no identifier, the env mapping has the
single key _RESULTS, and the runners value is the empty token. -/
theorem c10_empty_name_passthrough :
    stepsOf (build_workflow (["/"]))
      = [checkoutStep, installStep, gradingStep ("") (""), exportStep (""),
         reporterStep ([""])]
    ∧ mapGet (gradingStep ("") ("")) ("name") = some (Value.str (""))
    ∧ mapGet (gradingStep ("") ("")) ("id") = some (Value.str (""))
    ∧ mapGet (exportStep ("")) ("name")
        = some (Value.str ("Assign file contents to _RESULTS"))
    ∧ reporterEnvOf (build_workflow (["/"])) = [("_RESULTS", envVal (""))]
    ∧ runnersOf (build_workflow (["/"])) = some (Value.str ("")) := by
  refine ⟨by decide, by decide, by decide, by decide, by decide, by decide⟩

end Check50

